import Mathlib

/-!
Shallow embedding of the metadata-driven cache/refresh orchestrator
(`DataRepository` in `src/database.py`) of the clone_gunuberg repository.

Modelling conventions:
* Calendar dates (the `date` column, day precision, timezone-free) are day
  numbers of type `Int`.  `_ensure_date_format` parses the column into this
  canonical representation; on already-canonical data it is the identity, so
  the model's `ensureDateFormat` is the identity function.
* Wall-clock timestamps (`datetime.now()`, `last_checked`) are rationals
  measured in days, so that `timedelta(days=x)` is addition of `x` and
  `datetime.now().replace(hour=0, ...)` (midnight of today) is the floor.
  Python's `datetime.min` is the smallest representable timestamp; valid
  wall-clock values are nonnegative in this scale, and `datetimeMin = 0`
  stands for it.
* A single call of `get_data` observes one instant `now` (the code calls
  `datetime.now()` several times within microseconds; the claims do not
  depend on that drift).
* The filesystem writes performed by `_update_meta` / `to_csv` are modelled
  as infallible; the fallible operations are the Loader (which may raise,
  return `None`, or return rows), CSV/JSON parsing (a file may be corrupt),
  and the Hugging Face hub (a pull may fail).  Every `except` handler of the
  source is routed explicitly in the model.
* Network pushes (`upload_file`) are swallowed by the source on failure and
  never change local state, so they are not part of the modelled state.
-/

namespace Gunuberg

/-- A calendar date at day precision, as a day number. -/
abbrev Date := Int

/-- A wall-clock timestamp, in (fractional) days. -/
abbrev Time := ℚ

/-- Model of Python's `datetime.min`, the minimum representable timestamp;
valid wall-clock timestamps of the model are nonnegative. -/
def datetimeMin : Time := 0

/-- One record of a dataset: a date plus a numeric value field (the merge
logic of the source is field-agnostic, so one value column suffices). -/
structure Row where
  date : Date
  value : Int
deriving Repr, DecidableEq

/-- A dataset table: the ordered rows of a DataFrame with a `date` column. -/
abbrev Table := List Row

/-- Contents of an existing dataset artifact on disk: either unparsable
(`pd.read_csv` / date parsing raises) or a table of rows. -/
inductive CSV where
  | corrupt : CSV
  | rows : Table → CSV
deriving Repr, DecidableEq

/-- Contents of an existing metadata sidecar: either unparsable (corrupt
JSON, missing field, invalid timestamp) or a stored `last_checked` value. -/
inductive MetaCSV where
  | corrupt : MetaCSV
  | value : Time → MetaCSV
deriving Repr, DecidableEq

/-- Local persisted state for one dataset key: the dataset artifact and its
metadata sidecar, each possibly absent (`none`). -/
structure RepoState where
  dataFile : Option CSV
  metaFile : Option MetaCSV
deriving Repr, DecidableEq

/-- The remote hub mirror as seen by `_pull_from_hub`: for each of the two
artifacts, `none` means the download raises (pull fails), `some c` means the
pull succeeds and materializes content `c` at the local path. -/
structure Hub where
  data : Option CSV
  meta : Option MetaCSV
deriving Repr, DecidableEq

/-- Result of one `loader.fetch_data` call: the loader may raise, return
`None`, or return a DataFrame (possibly with zero rows). -/
inductive LoaderResult where
  | raises : LoaderResult
  | retNone : LoaderResult
  | rows : Table → LoaderResult
deriving Repr, DecidableEq

/-- A Loader, keyed by the `start_date` argument it is called with (`none`
models `start_date=None`); the remaining kwargs are fixed for one call. -/
abbrev Loader := Option Date → LoaderResult

/-- Model of `_ensure_date_format`: dates are already canonical day numbers
in the model, so normalization is the identity. -/
def ensureDateFormat (t : Table) : Table := t

/-- Model of `_load_csv` on an existing file: a corrupt file degrades to the
empty table (the bare `except` returns `pd.DataFrame()`). -/
def loadCsv : CSV → Table
  | .corrupt => []
  | .rows t => ensureDateFormat t

/-- Model of `_get_last_checked`: `datetime.min` when the sidecar is absent
or unreadable, otherwise the stored timestamp. -/
def getLastChecked : Option MetaCSV → Time
  | none => datetimeMin
  | some .corrupt => datetimeMin
  | some (.value t) => t

/-- The maximum of the `date` column (`df['date'].max()`); only used on
nonempty tables, with a default of 0 on the empty table. -/
def maxDate : Table → Date
  | [] => 0
  | r :: rs => rs.foldl (fun a x => max a x.date) r.date

/-- The minimum of the `date` column (`df['date'].min()`); only used on
nonempty tables, with a default of 0 on the empty table. -/
def minDate : Table → Date
  | [] => 0
  | r :: rs => rs.foldl (fun a x => min a x.date) r.date

/-- Model of `drop_duplicates(subset=['date'], keep='last')`: a row is kept
iff no later row carries the same date. -/
def keepLast : Table → Table
  | [] => []
  | r :: rest =>
      if rest.any (fun s => s.date == r.date) then keepLast rest
      else r :: keepLast rest

/-- Comparison of rows by date, the sort key of `sort_values('date')`. -/
def dateLe (a b : Row) : Prop := a.date ≤ b.date

instance : DecidableRel dateLe :=
  fun a b => inferInstanceAs (Decidable (a.date ≤ b.date))

instance : IsTotal Row dateLe := ⟨fun a b => Int.le_total a.date b.date⟩

instance : IsTrans Row dateLe := ⟨fun _ _ _ h h' => le_trans h h'⟩

/-- Model of `sort_values('date')` (after deduplication the dates are
distinct, so any comparison sort yields the same list). -/
def sortByDate (t : Table) : Table := List.insertionSort dateLe t

/-- The incremental merge of `get_data`: concatenate cached and new rows,
deduplicate by date keeping the last (= newly fetched) occurrence, sort
ascending by date. -/
def mergeTables (old new : Table) : Table := sortByDate (keepLast (old ++ new))

/-- Everything a single `get_data` call leaves behind: the returned value
(`none` models returning Python `None`), the final local artifacts, and the
`start_date` arguments of the Loader calls it made, in order. -/
structure Outcome where
  result : Option Table
  dataFile : Option CSV
  metaFile : Option MetaCSV
  loaderCalls : List (Option Date)
deriving Repr, DecidableEq

/-- Model of `_fetch_and_save`: call the loader with the given `start_date`;
on a raise return an empty table (state untouched); on `None` return `None`
(state untouched); on rows, save and touch the metadata only when the result
is nonempty, and return the rows either way. -/
def fetchAndSave (st : RepoState) (now : Time) (loader : Loader)
    (startDate : Option Date) : Outcome :=
  match loader startDate with
  | .raises => ⟨some [], st.dataFile, st.metaFile, [startDate]⟩
  | .retNone => ⟨none, st.dataFile, st.metaFile, [startDate]⟩
  | .rows t =>
      if t.isEmpty then ⟨some t, st.dataFile, st.metaFile, [startDate]⟩
      else
        ⟨some (ensureDateFormat t), some (.rows (ensureDateFormat t)),
          some (.value now), [startDate]⟩

/-- Branch B/C of `get_data` (forward fill): if the cached max date is
earlier than `today - 1 day`, fetch from `max + 1`; a loader raise, and the
`AttributeError` from `.empty` on a `None` result, are caught by the
top-level handler which returns the cached table with the metadata
untouched; zero new rows touch the metadata only; nonempty new rows are
merged, saved, and the metadata touched.  Otherwise (branch C) the metadata
is touched and the cached table returned unchanged. -/
def forwardFill (st : RepoState) (now : Time) (loader : Loader)
    (dfExisting : Table) : Outcome :=
  let currentMax := maxDate dfExisting
  let today : Int := ⌊now⌋
  if currentMax < today - 1 then
    let nextDay := currentMax + 1
    if ((nextDay : ℚ) > now) then
      ⟨some dfExisting, st.dataFile, some (.value now), []⟩
    else
      match loader (some nextDay) with
      | .raises => ⟨some dfExisting, st.dataFile, st.metaFile, [some nextDay]⟩
      | .retNone => ⟨some dfExisting, st.dataFile, st.metaFile, [some nextDay]⟩
      | .rows dfNew =>
          if dfNew.isEmpty then
            ⟨some dfExisting, st.dataFile, some (.value now), [some nextDay]⟩
          else
            let combined := mergeTables dfExisting (ensureDateFormat dfNew)
            ⟨some combined, some (.rows combined), some (.value now),
              [some nextDay]⟩
  else
    ⟨some dfExisting, st.dataFile, some (.value now), []⟩

/-- The guarded refresh block of `get_data` (lines inside the `try`):
backfill check first, then forward fill. -/
def tryRefresh (st : RepoState) (now : Time) (loader : Loader)
    (startDate : Option Date) (dfExisting : Table) : Outcome :=
  match startDate with
  | some s =>
      if minDate dfExisting > s + 5 then fetchAndSave st now loader (some s)
      else forwardFill st now loader dfExisting
  | none => forwardFill st now loader dfExisting

/-- Steps 2-3 of `get_data`, entered once the dataset artifact exists with
content `c` (and `st` reflects any hub recovery): load, re-fetch if empty,
short-circuit within cooldown, otherwise refresh. -/
def getDataCached (st : RepoState) (now : Time) (loader : Loader)
    (cooldown : Time) (startDate : Option Date) (c : CSV) : Outcome :=
  let dfExisting := loadCsv c
  if dfExisting.isEmpty then fetchAndSave st now loader startDate
  else if now - getLastChecked st.metaFile < cooldown then
    ⟨some dfExisting, st.dataFile, st.metaFile, []⟩
  else
    tryRefresh st now loader startDate dfExisting

/-- The metadata sidecar in effect after step 1's recovery: the pulled
sidecar when its pull succeeds, the pre-existing local one otherwise. -/
def recoveredMeta (hub : Hub) (st : RepoState) : Option MetaCSV :=
  match hub.meta with
  | some m => some m
  | none => st.metaFile

/-- Model of `DataRepository.get_data(filename, loader, check_interval_days,
start_date, **kwargs)` for one dataset key: step 1 recovers from the hub or
full-fetches when the artifact is absent, then steps 2-3 run on the loaded
cache. -/
def getData (hub : Hub) (st : RepoState) (now : Time) (loader : Loader)
    (cooldown : Time) (startDate : Option Date) : Outcome :=
  match st.dataFile with
  | some c => getDataCached st now loader cooldown startDate c
  | none =>
      match hub.data with
      | none => fetchAndSave st now loader startDate
      | some c =>
          getDataCached ⟨some c, recoveredMeta hub st⟩ now loader cooldown
            startDate c

/-- Well-formedness of a dataset per the spec's data-model invariants:
dates strictly increase along the table (hence unique and sorted). -/
def WellFormed (t : Table) : Prop :=
  t.Pairwise (fun a b => a.date < b.date)

instance (t : Table) : Decidable (WellFormed t) := by
  unfold WellFormed
  exact List.instDecidablePairwise t

/-- Agreement of two call outcomes on everything except the stored metadata
sidecar: same returned value, same dataset artifact, same loader calls. -/
def SameView (o o2 : Outcome) : Prop :=
  o.result = o2.result ∧ o.dataFile = o2.dataFile ∧
    o.loaderCalls = o2.loaderCalls

/-! ### Helper lemmas about the merge and the branch arithmetic -/

/-- Rows surviving deduplication come from the input list. -/
theorem keepLast_subset : ∀ {l : Table} {x : Row}, x ∈ keepLast l → x ∈ l
  | [], _, h => absurd h (List.not_mem_nil _)
  | r :: rest, x, h => by
    unfold keepLast at h
    split at h
    · exact List.mem_cons_of_mem r (keepLast_subset h)
    · rcases List.mem_cons.mp h with h | h
      · exact h ▸ List.mem_cons_self _ _
      · exact List.mem_cons_of_mem r (keepLast_subset h)

/-- After deduplication with `keep='last'`, all dates are pairwise distinct. -/
theorem keepLast_pairwise :
    ∀ l : Table, (keepLast l).Pairwise (fun a b => a.date ≠ b.date)
  | [] => List.Pairwise.nil
  | r :: rest => by
    unfold keepLast
    split
    · exact keepLast_pairwise rest
    · next hany =>
      refine List.Pairwise.cons ?_ (keepLast_pairwise rest)
      intro s hs hdate
      exact hany (List.any_eq_true.mpr
        ⟨s, keepLast_subset hs, by simp [hdate]⟩)

/-- A row surviving deduplication of `l₁ ++ l₂` either survives
deduplication of `l₂`, or comes from `l₁` and its date never occurs
in `l₂`. -/
theorem mem_keepLast_append :
    ∀ {l₁ : Table} {l₂ : Table} {x : Row}, x ∈ keepLast (l₁ ++ l₂) →
      x ∈ keepLast l₂ ∨ (x ∈ l₁ ∧ ∀ y ∈ l₂, y.date ≠ x.date)
  | [], _, _, h => Or.inl h
  | r :: l₁, l₂, x, h => by
    rw [List.cons_append] at h
    unfold keepLast at h
    split at h
    · rcases mem_keepLast_append h with h | ⟨ha, hb⟩
      · exact Or.inl h
      · exact Or.inr ⟨List.mem_cons_of_mem r ha, hb⟩
    · next hany =>
      rcases List.mem_cons.mp h with rfl | h
      · refine Or.inr ⟨List.mem_cons_self _ _, fun y hy hdy => ?_⟩
        exact hany (List.any_eq_true.mpr
          ⟨y, List.mem_append_right l₁ hy, by simp [hdy]⟩)
      · rcases mem_keepLast_append h with h | ⟨ha, hb⟩
        · exact Or.inl h
        · exact Or.inr ⟨List.mem_cons_of_mem r ha, hb⟩

/-- Membership in the merged table is membership in the deduplicated
concatenation. -/
theorem mem_mergeTables {old new : Table} {x : Row} :
    x ∈ mergeTables old new ↔ x ∈ keepLast (old ++ new) := by
  unfold mergeTables sortByDate
  exact List.mem_insertionSort dateLe

/-- The merged table is sorted ascending by date. -/
theorem mergeTables_sorted (old new : Table) :
    (mergeTables old new).Sorted dateLe :=
  List.sorted_insertionSort dateLe (keepLast (old ++ new))

/-- The merged table has pairwise distinct dates. -/
theorem mergeTables_pairwise_ne (old new : Table) :
    (mergeTables old new).Pairwise (fun a b => a.date ≠ b.date) :=
  ((List.perm_insertionSort dateLe (keepLast (old ++ new))).pairwise_iff
    (fun h => Ne.symm h)).mpr (keepLast_pairwise (old ++ new))

/-- The merged table contains no duplicate dates. -/
theorem mergeTables_nodup_dates (old new : Table) :
    ((mergeTables old new).map Row.date).Nodup :=
  List.pairwise_map.mpr (mergeTables_pairwise_ne old new)

/-- Conflicting dates are resolved in favor of the newly fetched rows: a
merged row whose date occurs among the new rows is itself a new row. -/
theorem mergeTables_new_wins {old new : Table} {x : Row}
    (hx : x ∈ mergeTables old new) (hd : x.date ∈ new.map Row.date) :
    x ∈ new := by
  rcases mem_keepLast_append (mem_mergeTables.mp hx) with h | ⟨_, hnone⟩
  · exact keepLast_subset h
  · rcases List.mem_map.mp hd with ⟨y, hy, hxy⟩
    exact absurd hxy (hnone y hy)

/-- Every merged row comes from the cached table or the new rows. -/
theorem mergeTables_mem_orig {old new : Table} {x : Row}
    (hx : x ∈ mergeTables old new) : x ∈ old ∨ x ∈ new :=
  List.mem_append.mp (keepLast_subset (mem_mergeTables.mp hx))

/-- The merged table is well-formed: strictly increasing dates. -/
theorem mergeTables_wellFormed (old new : Table) :
    WellFormed (mergeTables old new) :=
  ((mergeTables_sorted old new).and (mergeTables_pairwise_ne old new)).imp
    (fun h => lt_of_le_of_ne h.1 h.2)

/-- If the cached maximum is older than yesterday, the next missing day is
not in the future: the dead guard of the forward fill never fires. -/
theorem nextDay_not_gt {now : Time} {m : Date} (h : m < ⌊now⌋ - 1) :
    ¬((m + 1 : ℤ) : ℚ) > now := by
  have h1 : (m + 1 : ℤ) ≤ ⌊now⌋ := by linarith
  have h2 : ((m + 1 : ℤ) : ℚ) ≤ (⌊now⌋ : ℚ) := by exact_mod_cast h1
  have h3 : (⌊now⌋ : ℚ) ≤ now := Int.floor_le now
  linarith

/-- A full fetch calls the loader exactly once, with the given start. -/
theorem fetchAndSave_loaderCalls (st : RepoState) (now : Time)
    (loader : Loader) (sd : Option Date) :
    (fetchAndSave st now loader sd).loaderCalls = [sd] := by
  unfold fetchAndSave
  cases loader sd with
  | raises => rfl
  | retNone => rfl
  | rows t =>
      dsimp only
      split <;> rfl


/-- Claim C2 (confirmed): when the cached dataset exists, is nonempty, and
now minus `last_checked` is strictly below the cooldown, `get_data` returns
the cached table unchanged with no Loader call and no Metadata mutation;
a second call within the window yields the identical outcome. -/
theorem claim2_short_circuit (hub : Hub) (st : RepoState)
    (now now2 cooldown : Time) (loader : Loader) (startDate : Option Date)
    (t : Table)
    (h1 : st.dataFile = some (CSV.rows t)) (h2 : t ≠ [])
    (h3 : now - getLastChecked st.metaFile < cooldown)
    (h4 : now2 - getLastChecked st.metaFile < cooldown) :
    getData hub st now loader cooldown startDate =
      ⟨some t, st.dataFile, st.metaFile, []⟩ ∧
    getData hub st now2 loader cooldown startDate =
      ⟨some t, st.dataFile, st.metaFile, []⟩ := by
  obtain ⟨df, mf⟩ := st
  dsimp only at h1 h3 h4
  subst h1
  constructor <;>
    simp [getData, getDataCached, loadCsv, ensureDateFormat, h2, h3, h4]

/-- Claim C5 (confirmed): with a nonempty cache and a requested start more
than 5 days earlier than the cached minimum date, an expired cooldown
triggers a Full Fetch for the requested range (a single Loader call with
the requested start, overwriting the cache on a nonempty result); within
the cooldown the short-circuit takes precedence and no Full Fetch occurs. -/
theorem claim5_backfill (hub : Hub) (st : RepoState) (now cooldown : Time)
    (loader : Loader) (s : Date) (t : Table)
    (h1 : st.dataFile = some (CSV.rows t)) (h2 : t ≠ [])
    (h5 : minDate t > s + 5) :
    (¬ now - getLastChecked st.metaFile < cooldown →
      getData hub st now loader cooldown (some s) =
        fetchAndSave st now loader (some s) ∧
      (getData hub st now loader cooldown (some s)).loaderCalls = [some s] ∧
      ∀ tf : Table, loader (some s) = LoaderResult.rows tf → tf ≠ [] →
        getData hub st now loader cooldown (some s) =
          ⟨some tf, some (CSV.rows tf), some (MetaCSV.value now), [some s]⟩) ∧
    (now - getLastChecked st.metaFile < cooldown →
      getData hub st now loader cooldown (some s) =
        ⟨some t, st.dataFile, st.metaFile, []⟩) := by
  obtain ⟨df, mf⟩ := st
  dsimp only at h1
  subst h1
  constructor
  · intro hcd
    refine ⟨?_, ?_, ?_⟩
    · simp [getData, getDataCached, loadCsv, ensureDateFormat, h2, hcd,
        tryRefresh, h5]
    · simp [getData, getDataCached, loadCsv, ensureDateFormat, h2, hcd,
        tryRefresh, h5, fetchAndSave_loaderCalls]
    · intro tf hl hne
      simp [getData, getDataCached, loadCsv, ensureDateFormat, h2, hcd,
        tryRefresh, h5, fetchAndSave, hl, hne]
  · intro hcd
    simp [getData, getDataCached, loadCsv, ensureDateFormat, h2, hcd]

/-- Claim C6 (corrected): with the cooldown expired and no backfill
request, the Loader is called with start `cached max + 1` only when the
cached maximum date is earlier than today minus one day; when the cached
maximum is yesterday or later (in particular when it is at or past today),
`get_data` merely touches `last_checked` and returns the cache unchanged
with no Loader call. -/
theorem claim6_forward_fill (hub : Hub) (st : RepoState) (now cooldown : Time)
    (loader : Loader) (t : Table)
    (h1 : st.dataFile = some (CSV.rows t)) (h2 : t ≠ [])
    (h3 : ¬ now - getLastChecked st.metaFile < cooldown) :
    (maxDate t < ⌊now⌋ - 1 →
      (getData hub st now loader cooldown none).loaderCalls =
        [some (maxDate t + 1)]) ∧
    (¬ maxDate t < ⌊now⌋ - 1 →
      getData hub st now loader cooldown none =
        ⟨some t, st.dataFile, some (MetaCSV.value now), []⟩) := by
  obtain ⟨df, mf⟩ := st
  dsimp only at h1 h3
  subst h1
  constructor
  · intro h4
    simp only [getData, getDataCached, loadCsv, ensureDateFormat,
      tryRefresh, forwardFill]
    rw [if_neg (by simp [h2]), if_neg h3, if_pos h4,
      if_neg (nextDay_not_gt h4)]
    cases loader (some (maxDate t + 1)) with
    | raises => rfl
    | retNone => rfl
    | rows dfNew =>
        dsimp only
        split <;> rfl
  · intro h4
    simp only [getData, getDataCached, loadCsv, ensureDateFormat,
      tryRefresh, forwardFill]
    rw [if_neg (by simp [h2]), if_neg h3, if_neg h4]

/-- Claim C4 (confirmed): an incremental refresh whose Loader returns at
least one record returns and saves exactly the concatenation of cached and
new rows deduplicated by date with the newly fetched row winning; the
merged table has no duplicate dates, is sorted ascending by date, resolves
conflicting dates in favor of the new rows, and only contains rows of the
cache or of the fetch. -/
theorem claim4_merge (hub : Hub) (st : RepoState) (now cooldown : Time)
    (loader : Loader) (t tnew : Table)
    (h1 : st.dataFile = some (CSV.rows t)) (h2 : t ≠ [])
    (h3 : ¬ now - getLastChecked st.metaFile < cooldown)
    (h4 : maxDate t < ⌊now⌋ - 1)
    (h5 : loader (some (maxDate t + 1)) = LoaderResult.rows tnew)
    (h6 : tnew ≠ []) :
    getData hub st now loader cooldown none =
      ⟨some (mergeTables t tnew), some (CSV.rows (mergeTables t tnew)),
        some (MetaCSV.value now), [some (maxDate t + 1)]⟩ ∧
    ((mergeTables t tnew).map Row.date).Nodup ∧
    (mergeTables t tnew).Sorted dateLe ∧
    (∀ x ∈ mergeTables t tnew, x.date ∈ tnew.map Row.date → x ∈ tnew) ∧
    (∀ x ∈ mergeTables t tnew, x ∈ t ∨ x ∈ tnew) := by
  obtain ⟨df, mf⟩ := st
  dsimp only at h1 h3
  subst h1
  refine ⟨?_, mergeTables_nodup_dates t tnew, mergeTables_sorted t tnew,
    fun x hx hd => mergeTables_new_wins hx hd,
    fun x hx => mergeTables_mem_orig hx⟩
  simp only [getData, getDataCached, loadCsv, ensureDateFormat,
    tryRefresh, forwardFill]
  rw [if_neg (by simp [h2]), if_neg h3, if_pos h4,
    if_neg (nextDay_not_gt h4), h5]
  dsimp only
  rw [if_neg (by simp [h6])]

/-- Claim C3 (corrected): with a nonempty cache and an expired cooldown, a
Loader failure during the incremental refresh (raise, or a `None` result)
makes `get_data` return the cached table with `last_checked` unchanged; a
Loader raise during a backfill-triggered Full Fetch instead returns the
empty table (with `last_checked` and the cached artifact still unchanged). -/
theorem claim3_amended (hub : Hub) (st : RepoState) (now cooldown : Time)
    (loader : Loader) (t : Table)
    (h1 : st.dataFile = some (CSV.rows t)) (h2 : t ≠ [])
    (h3 : ¬ now - getLastChecked st.metaFile < cooldown) :
    (∀ s : Date, minDate t > s + 5 → loader (some s) = LoaderResult.raises →
      getData hub st now loader cooldown (some s) =
        ⟨some [], st.dataFile, st.metaFile, [some s]⟩) ∧
    (maxDate t < ⌊now⌋ - 1 →
      (loader (some (maxDate t + 1)) = LoaderResult.raises ∨
        loader (some (maxDate t + 1)) = LoaderResult.retNone) →
      getData hub st now loader cooldown none =
        ⟨some t, st.dataFile, st.metaFile, [some (maxDate t + 1)]⟩) := by
  obtain ⟨df, mf⟩ := st
  dsimp only at h1 h3
  subst h1
  constructor
  · intro s hs hl
    simp [getData, getDataCached, loadCsv, ensureDateFormat, h2, h3,
      tryRefresh, hs, fetchAndSave, hl]
  · intro h4 hl
    simp only [getData, getDataCached, loadCsv, ensureDateFormat,
      tryRefresh, forwardFill]
    rw [if_neg (by simp [h2]), if_neg h3, if_pos h4,
      if_neg (nextDay_not_gt h4)]
    rcases hl with hl | hl <;> rw [hl]



/-- Full fetch returns an actual table whenever the loader does not return
`None`. -/
theorem fetchAndSave_result_isSome (st : RepoState) (now : Time)
    (loader : Loader) (sd : Option Date)
    (h : loader sd ≠ LoaderResult.retNone) :
    (fetchAndSave st now loader sd).result.isSome := by
  unfold fetchAndSave
  cases hl : loader sd with
  | raises => rfl
  | retNone => exact absurd hl h
  | rows t =>
      dsimp only
      split <;> rfl

/-- Forward fill always returns an actual table. -/
theorem forwardFill_result_isSome (st : RepoState) (now : Time)
    (loader : Loader) (dfE : Table) :
    (forwardFill st now loader dfE).result.isSome := by
  unfold forwardFill
  dsimp only
  split
  · split
    · rfl
    · split
      · rfl
      · rfl
      · split <;> rfl
  · rfl

/-- Steps 2-3 return an actual table whenever the loader never returns
`None`. -/
theorem getDataCached_result_isSome (st : RepoState) (now : Time)
    (loader : Loader) (cooldown : Time) (sd : Option Date) (c : CSV)
    (hL : ∀ d, loader d ≠ LoaderResult.retNone) :
    (getDataCached st now loader cooldown sd c).result.isSome := by
  unfold getDataCached
  dsimp only
  split
  · exact fetchAndSave_result_isSome st now loader sd (hL sd)
  · split
    · rfl
    · unfold tryRefresh
      cases sd with
      | none => exact forwardFill_result_isSome st now loader _
      | some s =>
          dsimp only
          split
          · exact fetchAndSave_result_isSome st now loader (some s) (hL _)
          · exact forwardFill_result_isSome st now loader _

/-- Claim C1 (amended): `get_data` never raises to the caller; provided the
loader never returns `None`, it always returns a Table (possibly empty).
When a Full-Fetch loader returns `None` without raising, `get_data`
propagates `None` instead of a Table. -/
theorem claim1_amended (hub : Hub) (st : RepoState) (now cooldown : Time)
    (loader : Loader) (sd : Option Date)
    (hL : ∀ d, loader d ≠ LoaderResult.retNone) :
    (getData hub st now loader cooldown sd).result.isSome := by
  unfold getData
  cases st.dataFile with
  | some c => exact getDataCached_result_isSome _ now loader cooldown sd c hL
  | none =>
      cases hub.data with
      | none => exact fetchAndSave_result_isSome st now loader sd (hL sd)
      | some c => exact getDataCached_result_isSome _ now loader cooldown sd c hL

/-- Claim C1 counterexample: with no local cache, no hub copy and a loader
returning `None`, `get_data` returns `None`, not a Table. -/
theorem claim1_counterexample :
    (getData ⟨none, none⟩ ⟨none, none⟩ 0 (fun _ => LoaderResult.retNone) 1
      none).result = none := rfl

/-- Claim C1 witness: concrete instantiation with a raising loader. -/
theorem claim1_witness :
    (getData ⟨none, none⟩ ⟨none, none⟩ 0 (fun _ => LoaderResult.raises) 1
      none).result.isSome :=
  claim1_amended ⟨none, none⟩ ⟨none, none⟩ 0 1 (fun _ => LoaderResult.raises)
    none (fun _ h => LoaderResult.noConfusion h)

/-- Claim C7 (corrected): an incremental refresh in which the Loader
returns zero records still updates `last_checked` while leaving the
dataset unchanged; a Full Fetch updates `last_checked` only when the
Loader returned at least one row, and leaves the metadata untouched on a
zero-row result. -/
theorem claim7_amended (hub : Hub) (st : RepoState) (now cooldown : Time)
    (loader : Loader) (t : Table)
    (h1 : st.dataFile = some (CSV.rows t)) (h2 : t ≠ [])
    (h3 : ¬ now - getLastChecked st.metaFile < cooldown)
    (h4 : maxDate t < ⌊now⌋ - 1) :
    (loader (some (maxDate t + 1)) = LoaderResult.rows [] →
      getData hub st now loader cooldown none =
        ⟨some t, st.dataFile, some (MetaCSV.value now),
          [some (maxDate t + 1)]⟩) ∧
    (∀ (st2 : RepoState) (now2 : Time) (loader2 : Loader) (sd : Option Date)
      (tf : Table), loader2 sd = LoaderResult.rows tf →
      (tf ≠ [] → (fetchAndSave st2 now2 loader2 sd).metaFile =
        some (MetaCSV.value now2)) ∧
      (tf = [] → (fetchAndSave st2 now2 loader2 sd).metaFile =
        st2.metaFile)) := by
  constructor
  · intro hl
    obtain ⟨df, mf⟩ := st
    dsimp only at h1 h3
    subst h1
    simp only [getData, getDataCached, loadCsv, ensureDateFormat,
      tryRefresh, forwardFill]
    rw [if_neg (by simp [h2]), if_neg h3, if_pos h4,
      if_neg (nextDay_not_gt h4), hl]
    rfl
  · intro st2 now2 loader2 sd tf hl
    constructor
    · intro hne
      simp [fetchAndSave, hl, hne]
    · intro he
      subst he
      simp [fetchAndSave, hl]

/-- Claim C7 counterexample: a Full Fetch whose loader returns zero rows
leaves `last_checked` at its old value instead of updating it. -/
theorem claim7_counterexample :
    (getData ⟨none, none⟩ ⟨none, some (MetaCSV.value 0)⟩ 100
      (fun _ => LoaderResult.rows []) 1 none).metaFile =
      some (MetaCSV.value 0) ∧
    some (MetaCSV.value (0:ℚ)) ≠ some (MetaCSV.value (100:ℚ)) := by
  exact ⟨rfl, by simp⟩

/-- Claim C7 witness: concrete zero-record incremental refresh that updates
`last_checked` and keeps the dataset. -/
theorem claim7_witness :
    getData ⟨none, none⟩ ⟨some (CSV.rows [⟨0, 0⟩]), some (MetaCSV.value 0)⟩ 3
      (fun _ => LoaderResult.rows []) 1 none =
      ⟨some [⟨0, 0⟩], some (CSV.rows [⟨0, 0⟩]), some (MetaCSV.value 3),
        [some 1]⟩ :=
  (claim7_amended ⟨none, none⟩ ⟨some (CSV.rows [⟨0, 0⟩]), some (MetaCSV.value 0)⟩
    3 1 (fun _ => LoaderResult.rows []) [⟨0, 0⟩] rfl (by decide) (by simp [getLastChecked])
    (by simp [maxDate])).1 rfl

/-- Claim C8 (amended): with no local artifact and a hub recovery pulling a
nonempty dataset, `get_data` returns the recovered dataset with no Loader
call, provided the metadata in effect after recovery still places the call
within the cooldown window. -/
theorem claim8_recovery (hub : Hub) (st : RepoState) (now cooldown : Time)
    (loader : Loader) (sd : Option Date) (t : Table)
    (h1 : st.dataFile = none)
    (h2 : hub.data = some (CSV.rows t)) (h3 : t ≠ [])
    (h4 : now - getLastChecked (recoveredMeta hub st) < cooldown) :
    getData hub st now loader cooldown sd =
      ⟨some t, some (CSV.rows t), recoveredMeta hub st, []⟩ := by
  obtain ⟨hd, hm⟩ := hub
  obtain ⟨df, mf⟩ := st
  dsimp only at h1 h2
  subst h1 h2
  simp [getData, getDataCached, loadCsv, ensureDateFormat, h3, h4]

/-- Claim C8 counterexample: after a successful recovery with no metadata,
the cooldown counts as expired and the stale recovered dataset triggers a
Loader call in the same `get_data` invocation. -/
theorem claim8_counterexample :
    (getData ⟨some (CSV.rows [⟨0, 1⟩]), none⟩ ⟨none, none⟩ 100
      (fun _ => LoaderResult.raises) 1 none).loaderCalls = [some 1] ∧
    ([some (1 : Date)] : List (Option Date)) ≠ [] := by
  constructor
  · norm_num [getData, getDataCached, tryRefresh, forwardFill, loadCsv,
      ensureDateFormat, getLastChecked, maxDate, datetimeMin, recoveredMeta]
  · simp

/-- Claim C8 witness: concrete recovery within cooldown, no Loader call. -/
theorem claim8_witness :
    getData ⟨some (CSV.rows [⟨5, 1⟩]), some (MetaCSV.value 0)⟩ ⟨none, none⟩ 0
      (fun _ => LoaderResult.raises) 1 none =
      ⟨some [⟨5, 1⟩], some (CSV.rows [⟨5, 1⟩]),
        recoveredMeta ⟨some (CSV.rows [⟨5, 1⟩]), some (MetaCSV.value 0)⟩
          ⟨none, none⟩, []⟩ :=
  claim8_recovery ⟨some (CSV.rows [⟨5, 1⟩]), some (MetaCSV.value 0)⟩
    ⟨none, none⟩ 0 1 (fun _ => LoaderResult.raises) none [⟨5, 1⟩] rfl rfl
    (by decide) (by simp [recoveredMeta, getLastChecked])



/-- Well-formedness is preserved by the full-fetch path when the loader
supplies well-formed tables. -/
theorem fetchAndSave_dataFile_ok (st : RepoState) (now : Time)
    (loader : Loader) (sd : Option Date)
    (hL : ∀ d t', loader d = LoaderResult.rows t' → WellFormed t')
    (hS : ∀ t', st.dataFile = some (CSV.rows t') → WellFormed t') :
    ∀ t', (fetchAndSave st now loader sd).dataFile = some (CSV.rows t') →
      WellFormed t' := by
  intro t' h
  unfold fetchAndSave at h
  cases hl : loader sd with
  | raises => rw [hl] at h; exact hS t' h
  | retNone => rw [hl] at h; exact hS t' h
  | rows tr =>
      rw [hl] at h
      dsimp only at h
      split at h
      · exact hS t' h
      · simp only [ensureDateFormat, Option.some.injEq, CSV.rows.injEq] at h
        subst h
        exact hL sd _ hl

/-- Well-formedness is preserved by the forward-fill path (a merged save is
well-formed unconditionally). -/
theorem forwardFill_dataFile_ok (st : RepoState) (now : Time)
    (loader : Loader) (dfE : Table)
    (_hL : ∀ d t', loader d = LoaderResult.rows t' → WellFormed t')
    (hS : ∀ t', st.dataFile = some (CSV.rows t') → WellFormed t') :
    ∀ t', (forwardFill st now loader dfE).dataFile = some (CSV.rows t') →
      WellFormed t' := by
  intro t' h
  unfold forwardFill at h
  dsimp only at h
  split at h
  · split at h
    · exact hS t' h
    · split at h
      · exact hS t' h
      · exact hS t' h
      · split at h
        · exact hS t' h
        · simp only [Option.some.injEq, CSV.rows.injEq] at h
          subst h
          exact mergeTables_wellFormed _ _
  · exact hS t' h

/-- Well-formedness is preserved by the guarded refresh block. -/
theorem tryRefresh_dataFile_ok (st : RepoState) (now : Time)
    (loader : Loader) (sd : Option Date) (dfE : Table)
    (hL : ∀ d t', loader d = LoaderResult.rows t' → WellFormed t')
    (hS : ∀ t', st.dataFile = some (CSV.rows t') → WellFormed t') :
    ∀ t', (tryRefresh st now loader sd dfE).dataFile = some (CSV.rows t') →
      WellFormed t' := by
  intro t' h
  unfold tryRefresh at h
  cases sd with
  | none => exact forwardFill_dataFile_ok st now loader dfE hL hS t' h
  | some s =>
      dsimp only at h
      split at h
      · exact fetchAndSave_dataFile_ok st now loader (some s) hL hS t' h
      · exact forwardFill_dataFile_ok st now loader dfE hL hS t' h

/-- Well-formedness is preserved by steps 2-3. -/
theorem getDataCached_dataFile_ok (st : RepoState) (now : Time)
    (loader : Loader) (cooldown : Time) (sd : Option Date) (c : CSV)
    (hL : ∀ d t', loader d = LoaderResult.rows t' → WellFormed t')
    (hS : ∀ t', st.dataFile = some (CSV.rows t') → WellFormed t') :
    ∀ t', (getDataCached st now loader cooldown sd c).dataFile =
      some (CSV.rows t') → WellFormed t' := by
  intro t' h
  unfold getDataCached at h
  dsimp only at h
  split at h
  · exact fetchAndSave_dataFile_ok st now loader sd hL hS t' h
  · split at h
    · exact hS t' h
    · exact tryRefresh_dataFile_ok st now loader sd _ hL hS t' h

/-- Claim C9 (amended): provided the loader and any hub copy supply
well-formed tables, every dataset artifact left behind by `get_data` is
absent or well-formed (unique dates, ascending order); the incremental
merge guarantees this unconditionally, while the Full Fetch path saves the
loader result verbatim, so there its well-formedness must come from the
loader. -/
theorem claim9_wellformed (hub : Hub) (st : RepoState) (now cooldown : Time)
    (loader : Loader) (sd : Option Date)
    (hL : ∀ d t', loader d = LoaderResult.rows t' → WellFormed t')
    (hS : ∀ t', st.dataFile = some (CSV.rows t') → WellFormed t')
    (hH : ∀ t', hub.data = some (CSV.rows t') → WellFormed t') :
    ∀ t', (getData hub st now loader cooldown sd).dataFile =
      some (CSV.rows t') → WellFormed t' := by
  unfold getData
  cases hdf : st.dataFile with
  | some c => exact getDataCached_dataFile_ok st now loader cooldown sd c hL hS
  | none =>
      cases hd : hub.data with
      | none => exact fetchAndSave_dataFile_ok st now loader sd hL hS
      | some c =>
          refine getDataCached_dataFile_ok _ now loader cooldown sd c hL ?_

          intro t' h
          dsimp only at h
          exact hH t' (hd.trans h)

/-- Claim C9 counterexample: a Full Fetch saves an unsorted loader result
verbatim, so the saved dataset violates the sortedness/uniqueness
invariant. -/
theorem claim9_counterexample :
    (getData ⟨none, none⟩ ⟨none, none⟩ 0
      (fun _ => LoaderResult.rows [⟨5, 0⟩, ⟨3, 0⟩]) 1 none).dataFile =
      some (CSV.rows [⟨5, 0⟩, ⟨3, 0⟩]) ∧
    ¬ WellFormed [⟨5, 0⟩, ⟨3, 0⟩] :=
  ⟨rfl, by decide⟩

/-- Claim C9 witness: concrete well-formed full fetch via the amended
theorem. -/
theorem claim9_witness : WellFormed [(⟨1, 0⟩ : Row), ⟨2, 0⟩] :=
  claim9_wellformed ⟨none, none⟩ ⟨none, none⟩ 0 1
    (fun _ => LoaderResult.rows [⟨1, 0⟩, ⟨2, 0⟩]) none
    (fun _ t' h => by cases h; decide)
    (fun _ h => Option.noConfusion h)
    (fun _ h => Option.noConfusion h)
    [⟨1, 0⟩, ⟨2, 0⟩] rfl



/-- Full fetch reads the metadata sidecar only to carry it along: result,
dataset and loader calls do not depend on it. -/
theorem fetchAndSave_sameView (df : Option CSV) (mf mf' : Option MetaCSV)
    (now : Time) (loader : Loader) (sd : Option Date) :
    SameView (fetchAndSave ⟨df, mf⟩ now loader sd)
      (fetchAndSave ⟨df, mf'⟩ now loader sd) := by
  unfold fetchAndSave SameView
  cases loader sd with
  | raises => exact ⟨rfl, rfl, rfl⟩
  | retNone => exact ⟨rfl, rfl, rfl⟩
  | rows t =>
      dsimp only
      by_cases ht : t.isEmpty <;> simp [ht]

/-- Forward fill never reads the metadata sidecar. -/
theorem forwardFill_sameView (df : Option CSV) (mf mf' : Option MetaCSV)
    (now : Time) (loader : Loader) (dfE : Table) :
    SameView (forwardFill ⟨df, mf⟩ now loader dfE)
      (forwardFill ⟨df, mf'⟩ now loader dfE) := by
  unfold forwardFill SameView
  dsimp only
  by_cases h1 : maxDate dfE < ⌊now⌋ - 1
  · rw [if_pos h1, if_pos h1]
    by_cases h2 : ((maxDate dfE + 1 : ℤ) : ℚ) > now
    · rw [if_pos h2, if_pos h2]
      exact ⟨rfl, rfl, rfl⟩
    · rw [if_neg h2, if_neg h2]
      cases loader (some (maxDate dfE + 1)) with
      | raises => exact ⟨rfl, rfl, rfl⟩
      | retNone => exact ⟨rfl, rfl, rfl⟩
      | rows dfNew =>
          dsimp only
          by_cases h3 : dfNew.isEmpty = true
          · rw [if_pos h3]
            exact ⟨rfl, rfl, rfl⟩
          · rw [if_neg h3]
            exact ⟨rfl, rfl, rfl⟩
  · rw [if_neg h1, if_neg h1]
    exact ⟨rfl, rfl, rfl⟩

/-- The guarded refresh block never reads the metadata sidecar. -/
theorem tryRefresh_sameView (df : Option CSV) (mf mf' : Option MetaCSV)
    (now : Time) (loader : Loader) (sd : Option Date) (dfE : Table) :
    SameView (tryRefresh ⟨df, mf⟩ now loader sd dfE)
      (tryRefresh ⟨df, mf'⟩ now loader sd dfE) := by
  unfold tryRefresh
  cases sd with
  | none => exact forwardFill_sameView df mf mf' now loader dfE
  | some s =>
      dsimp only
      by_cases hb : minDate dfE > s + 5
      · simp only [if_pos hb]
        exact fetchAndSave_sameView df mf mf' now loader (some s)
      · simp only [if_neg hb]
        exact forwardFill_sameView df mf mf' now loader dfE

/-- Steps 2-3 depend on the metadata sidecar only through
`getLastChecked`. -/
theorem getDataCached_sameView (df : Option CSV) (mf mf' : Option MetaCSV)
    (now : Time) (loader : Loader) (cooldown : Time) (sd : Option Date)
    (c : CSV) (h : getLastChecked mf = getLastChecked mf') :
    SameView (getDataCached ⟨df, mf⟩ now loader cooldown sd c)
      (getDataCached ⟨df, mf'⟩ now loader cooldown sd c) := by
  unfold getDataCached
  dsimp only
  by_cases he : (loadCsv c).isEmpty
  · simp only [he, if_true]
    exact fetchAndSave_sameView df mf mf' now loader sd
  · simp only [he, if_false, h]
    by_cases hcd : now - getLastChecked mf' < cooldown
    · simp only [if_pos hcd]
      exact ⟨rfl, rfl, rfl⟩
    · simp only [if_neg hcd]
      exact tryRefresh_sameView df mf mf' now loader sd (loadCsv c)

/-- The whole call depends on the local metadata sidecar only through
`getLastChecked`. -/
theorem getData_sameView (hub : Hub) (df : Option CSV)
    (mf mf' : Option MetaCSV) (now : Time) (loader : Loader)
    (cooldown : Time) (sd : Option Date)
    (h : getLastChecked mf = getLastChecked mf') :
    SameView (getData hub ⟨df, mf⟩ now loader cooldown sd)
      (getData hub ⟨df, mf'⟩ now loader cooldown sd) := by
  unfold getData
  dsimp only
  cases df with
  | some c => exact getDataCached_sameView _ mf mf' now loader cooldown sd c h
  | none =>
      cases hd : hub.data with
      | none => exact fetchAndSave_sameView none mf mf' now loader sd
      | some c =>
          unfold recoveredMeta
          cases hm : hub.meta with
          | some m => exact ⟨rfl, rfl, rfl⟩
          | none => exact getDataCached_sameView _ mf mf' now loader cooldown sd c h

/-- Claim C10 (confirmed): an unreadable metadata sidecar yields the
minimum representable timestamp exactly like an absent one; `get_data`
behaves identically (same result, same dataset artifact, same Loader
calls) on a corrupt sidecar as on an absent one, and whenever the cooldown
does not exceed the time elapsed since `datetimeMin` the cooldown counts
as expired. -/
theorem claim10_corrupt_meta (hub : Hub) (df : Option CSV)
    (now cooldown : Time) (loader : Loader) (sd : Option Date) :
    getLastChecked (some MetaCSV.corrupt) = datetimeMin ∧
    getLastChecked none = datetimeMin ∧
    SameView (getData hub ⟨df, some MetaCSV.corrupt⟩ now loader cooldown sd)
      (getData hub ⟨df, none⟩ now loader cooldown sd) ∧
    (∀ now2 cd2 : Time, cd2 ≤ now2 - datetimeMin →
      ¬ now2 - getLastChecked (some MetaCSV.corrupt) < cd2) := by
  refine ⟨rfl, rfl,
    getData_sameView hub df (some MetaCSV.corrupt) none now loader cooldown sd
      rfl, ?_⟩
  intro now2 cd2 hle
  simpa [getLastChecked] using not_lt.mpr hle

/-- Claim C10 witness: concrete expired-cooldown check on a corrupt
sidecar. -/
theorem claim10_witness :
    ¬ (1:ℚ) - getLastChecked (some MetaCSV.corrupt) < 1 :=
  (claim10_corrupt_meta ⟨none, none⟩ none 0 1
    (fun _ => LoaderResult.raises) none).2.2.2 1 1 (by simp [datetimeMin])

/-- Claim C2 witness: concrete within-cooldown call. -/
theorem claim2_witness :
    getData ⟨none, none⟩
      ⟨some (CSV.rows [⟨5, 7⟩]), some (MetaCSV.value 0)⟩ 0
      (fun _ => LoaderResult.raises) 1 none =
      ⟨some [⟨5, 7⟩], some (CSV.rows [⟨5, 7⟩]), some (MetaCSV.value 0), []⟩ :=
  (claim2_short_circuit ⟨none, none⟩
    ⟨some (CSV.rows [⟨5, 7⟩]), some (MetaCSV.value 0)⟩ 0 0 1
    (fun _ => LoaderResult.raises) none [⟨5, 7⟩] rfl (by decide)
    (by simp [getLastChecked]) (by simp [getLastChecked])).1

/-- Claim C3 counterexample: a raising loader during a backfill Full Fetch
makes `get_data` return the empty table, not the nonempty cached one. -/
theorem claim3_counterexample :
    getData ⟨none, none⟩
      ⟨some (CSV.rows [⟨10, 5⟩]), some (MetaCSV.value 0)⟩ 100
      (fun _ => LoaderResult.raises) 1 (some 0) =
      ⟨some [], some (CSV.rows [⟨10, 5⟩]), some (MetaCSV.value 0), [some 0]⟩ ∧
    some ([] : Table) ≠ some [(⟨10, 5⟩ : Row)] := by
  constructor
  · norm_num [getData, getDataCached, tryRefresh, fetchAndSave, loadCsv,
      ensureDateFormat, getLastChecked, minDate]
  · simp

/-- Claim C3 witness: concrete incremental-refresh loader raise returning
the cache with metadata untouched. -/
theorem claim3_witness :
    getData ⟨none, none⟩
      ⟨some (CSV.rows [⟨0, 5⟩]), some (MetaCSV.value 0)⟩ 7
      (fun _ => LoaderResult.raises) 1 none =
      ⟨some [⟨0, 5⟩], some (CSV.rows [⟨0, 5⟩]), some (MetaCSV.value 0),
        [some 1]⟩ :=
  (claim3_amended ⟨none, none⟩
    ⟨some (CSV.rows [⟨0, 5⟩]), some (MetaCSV.value 0)⟩ 7 1
    (fun _ => LoaderResult.raises) [⟨0, 5⟩] rfl (by decide)
    (by simp [getLastChecked])).2 (by decide) (Or.inl rfl)

/-- Claim C4 witness: concrete overlapping incremental merge. -/
theorem claim4_witness :
    getData ⟨none, none⟩
      ⟨some (CSV.rows [⟨6, 1⟩, ⟨7, 2⟩]), some (MetaCSV.value 0)⟩ 10
      (fun _ => LoaderResult.rows [⟨8, 20⟩, ⟨7, 30⟩]) 1 none =
      ⟨some (mergeTables [⟨6, 1⟩, ⟨7, 2⟩] [⟨8, 20⟩, ⟨7, 30⟩]),
        some (CSV.rows (mergeTables [⟨6, 1⟩, ⟨7, 2⟩] [⟨8, 20⟩, ⟨7, 30⟩])),
        some (MetaCSV.value 10), [some 8]⟩ :=
  (claim4_merge ⟨none, none⟩
    ⟨some (CSV.rows [⟨6, 1⟩, ⟨7, 2⟩]), some (MetaCSV.value 0)⟩ 10 1
    (fun _ => LoaderResult.rows [⟨8, 20⟩, ⟨7, 30⟩]) [⟨6, 1⟩, ⟨7, 2⟩]
    [⟨8, 20⟩, ⟨7, 30⟩] rfl (by decide) (by simp [getLastChecked])
    (by decide) rfl (by decide)).1

/-- Claim C5 witness: concrete backfill-triggered Full Fetch overwriting
the cache. -/
theorem claim5_witness :
    getData ⟨none, none⟩
      ⟨some (CSV.rows [⟨10, 7⟩]), some (MetaCSV.value 0)⟩ 1
      (fun _ => LoaderResult.rows [⟨0, 9⟩]) 1 (some 0) =
      ⟨some [⟨0, 9⟩], some (CSV.rows [⟨0, 9⟩]), some (MetaCSV.value 1),
        [some 0]⟩ :=
  ((claim5_backfill ⟨none, none⟩
    ⟨some (CSV.rows [⟨10, 7⟩]), some (MetaCSV.value 0)⟩ 1 1
    (fun _ => LoaderResult.rows [⟨0, 9⟩]) 0 [⟨10, 7⟩] rfl (by decide)
    (by decide)).1 (by simp [getLastChecked])).2.2 [⟨0, 9⟩] rfl (by decide)

/-- Claim C6 counterexample: a cached maximum of yesterday is before today,
yet the expired-cooldown call makes no Loader call and returns the cache,
because the code only fetches when the maximum is before today minus one
day. -/
theorem claim6_counterexample :
    getData ⟨none, none⟩
      ⟨some (CSV.rows [⟨9, 1⟩]), some (MetaCSV.value 0)⟩ 10
      (fun _ => LoaderResult.rows [⟨10, 2⟩]) 1 none =
      ⟨some [⟨9, 1⟩], some (CSV.rows [⟨9, 1⟩]), some (MetaCSV.value 10), []⟩ ∧
    maxDate [⟨9, 1⟩] < ⌊(10:ℚ)⌋ ∧
    ¬ (10:ℚ) - getLastChecked (some (MetaCSV.value 0)) < 1 := by
  refine ⟨?_, by decide, by simp [getLastChecked]⟩
  norm_num [getData, getDataCached, tryRefresh, forwardFill, loadCsv,
    ensureDateFormat, getLastChecked, maxDate]

/-- Claim C6 witness: concrete stale cache triggering the forward-fill
Loader call. -/
theorem claim6_witness :
    (getData ⟨none, none⟩
      ⟨some (CSV.rows [⟨0, 0⟩]), some (MetaCSV.value 0)⟩ 3
      (fun _ => LoaderResult.raises) 1 none).loaderCalls = [some 1] :=
  (claim6_forward_fill ⟨none, none⟩
    ⟨some (CSV.rows [⟨0, 0⟩]), some (MetaCSV.value 0)⟩ 3 1
    (fun _ => LoaderResult.raises) [⟨0, 0⟩] rfl (by decide)
    (by simp [getLastChecked])).1 (by decide)


end Gunuberg
